import Mathlib

/-!
Verification of the go-nitro state-channel client core against its
natural-language specification.

The development shallowly embeds the Go sources:

* the crypto package (`SignEthereumMessage`, `RecoverEthereumMessageSigner`,
  `SplitSignature`, `joinSignature`, `Signature.MarshalJSON`,
  `Signature.UnmarshalJSON`, `allZero`);
* `channel/state/outcome/guarantee.go` (`GuaranteeMetadata.Encode`,
  `DecodeIntoGuaranteeMetadata`);
* `client/engine/engine.go` (`handleMessage`, `handleChainEvent`,
  `handleAPIEvent`, `executeSideEffects`).

Go byte slices are `List Nat` with every element below 256 where it matters;
fallible Go functions return `Except String` or pair their result with an
`Option String` error. External library primitives (secp256k1, keccak256,
go-ethereum abi and hex utilities, encoding/json) are either modelled
concretely from their documented behaviour or abstracted into a structure of
operations together with the library contract the Go code relies on.
-/

abbrev Bytes := List Nat

def strBytes (s : String) : Bytes := s.toList.map Char.toNat

/-- Signature is an ECDSA signature, fields R, S, V as in the crypto package.
The Go zero value (nil R, nil S, zero V) is `⟨[], [], 0⟩` here. -/
structure Signature where
  R : Bytes
  S : Bytes
  V : Nat
deriving DecidableEq, Repr

/-- Embeds SplitSignature: takes a 65 byte signature in the R,S,V
concatenated format and returns the individual components. -/
def SplitSignature (concatenatedSignature : Bytes) : Signature :=
  { R := concatenatedSignature.take 32
    S := (concatenatedSignature.drop 32).take 32
    V := concatenatedSignature.getD 64 0 }

/-- Embeds joinSignature: concatenates R, S and the single byte V. -/
def joinSignature (signature : Signature) : Bytes :=
  signature.R ++ signature.S ++ [signature.V]

/-- Embeds Signature.Equal: bytewise equality of S, of R, and equality of V. -/
def Signature.equal (s1 s2 : Signature) : Bool :=
  s1.S == s2.S && s1.R == s2.R && s1.V == s2.V

/-- Bundle of the external go-ethereum and secp256k1 primitives the crypto
package calls. The Go code under verification treats these as black boxes, so
the embedding abstracts them as fields; `pubOf` is the public key of a secret
key, used to state the library contract. -/
structure EthCrypto where
  keccak256 : Bytes → Bytes
  secpSign : Bytes → Bytes → Except String Bytes
  secpRecoverPubkey : Bytes → Bytes → Except String Bytes
  unmarshalPubkey : Bytes → Except String Bytes
  pubkeyToAddress : Bytes → Bytes
  pubOf : Bytes → Bytes

/-- Contract of the secp256k1 library assumed by the crypto package: a
successful signature is 65 bytes, its recovery byte is 0 or 1, public key
recovery on it returns the signer's public key, and a recovered public key
unmarshals successfully. -/
structure SecpSound (C : EthCrypto) : Prop where
  sign_length : ∀ d k s, C.secpSign d k = .ok s → s.length = 65
  sign_v : ∀ d k s, C.secpSign d k = .ok s → s.getD 64 0 = 0 ∨ s.getD 64 0 = 1
  recover_sign : ∀ d k s, C.secpSign d k = .ok s →
    C.secpRecoverPubkey d s = .ok (C.pubOf k)
  unmarshal_pub : ∀ k, C.unmarshalPubkey (C.pubOf k) = .ok (C.pubOf k)

/-- Address derived from a secret key's public key, as
crypto.PubkeyToAddress of the public key. -/
def addressOf (C : EthCrypto) (k : Bytes) : Bytes :=
  C.pubkeyToAddress (C.pubOf k)

/-- Byte 0x19 followed by the ASCII bytes of the known Ethereum signed
message tag. -/
def ethMessageTag : Bytes := 25 :: strBytes "Ethereum Signed Message:\n"

/-- ASCII decimal rendering of a natural number, as Go fmt with the d verb. -/
def decimalAscii (n : Nat) : Bytes := (Nat.toDigits 10 n).map Char.toNat

/-- Embeds computeEthereumSignedMessageDigest: keccak256 of the tag, the
decimal length of the message, and the message. -/
def computeEthereumSignedMessageDigest (C : EthCrypto) (message : Bytes) : Bytes :=
  C.keccak256 (ethMessageTag ++ decimalAscii message.length ++ message)

/-- Embeds SignEthereumMessage: sign the digest with secp256k1, split the
concatenated signature, and add 27 to V when it is below 27 (byte
arithmetic). -/
def SignEthereumMessage (C : EthCrypto) (message secretKey : Bytes) :
    Except String Signature :=
  match C.secpSign (computeEthereumSignedMessageDigest C message) secretKey with
  | .error e => .error e
  | .ok concatenatedSignature =>
    let sig := SplitSignature concatenatedSignature
    let sig := if sig.V < 27 then { sig with V := (sig.V + 27) % 256 } else sig
    .ok sig

/-- First step of RecoverEthereumMessageSigner: subtract 27 from V when it is
at least 27 (byte arithmetic), to remain compatible with the ecrecover
precompile. -/
def normaliseV (signature : Signature) : Signature :=
  if 27 ≤ signature.V then { signature with V := (signature.V - 27) % 256 }
  else signature

/-- Embeds RecoverEthereumMessageSigner: normalise V, recompute the digest,
recover the public key from the joined signature, unmarshal it and return its
address. -/
def RecoverEthereumMessageSigner (C : EthCrypto) (message : Bytes)
    (signature : Signature) : Except String Bytes :=
  let sig := normaliseV signature
  let digest := computeEthereumSignedMessageDigest C message
  match C.secpRecoverPubkey digest (joinSignature sig) with
  | .error e => .error e
  | .ok pubKey =>
    match C.unmarshalPubkey pubKey with
    | .error e => .error e
    | .ok ecdsaPubKey => .ok (C.pubkeyToAddress ecdsaPubKey)

/-- Embeds allZero: true when every byte of the slice is zero. -/
def allZero (s : Bytes) : Bool := s.all (fun v => v == 0)

/-- Value of an ASCII hexadecimal digit, lower or upper case; `none` on any
other byte. Models the digit table of the Go encoding hex package. -/
def hexDigitVal (c : Nat) : Option Nat :=
  if 48 ≤ c ∧ c ≤ 57 then some (c - 48)
  else if 97 ≤ c ∧ c ≤ 102 then some (c - 87)
  else if 65 ≤ c ∧ c ≤ 70 then some (c - 55)
  else none

/-- ASCII byte of the hexadecimal digit of a value below 16, lower case, as
produced by the Go encoding hex package. -/
def hexDigitChar (n : Nat) : Nat := if n < 10 then 48 + n else 87 + n

/-- Models hex DecodeString of the Go standard library: consume the digits in
pairs, failing on a non-digit byte or an odd number of digits. -/
def hexDecodeBytes : List Nat → Except String Bytes
  | [] => .ok []
  | [_] => .error "encoding hex odd length hex string"
  | a :: b :: rest =>
    match hexDigitVal a with
    | none => .error "encoding hex invalid byte"
    | some x =>
      match hexDigitVal b with
      | none => .error "encoding hex invalid byte"
      | some y =>
        match hexDecodeBytes rest with
        | .error e => .error e
        | .ok tail => .ok ((16 * x + y) :: tail)

/-- Models hex EncodeToString of the Go standard library: two lower case
digits per byte. -/
def hexEncodeBytes (bs : Bytes) : List Nat :=
  bs.flatMap (fun v => [hexDigitChar ((v / 16) % 16), hexDigitChar (v % 16)])

/-- Models has0xPrefix of go-ethereum hexutil: at least two bytes, the first
the digit zero, the second the letter x in either case. -/
def has0x (input : List Nat) : Bool :=
  match input with
  | a :: b :: _ => a == 48 && (b == 120 || b == 88)
  | _ => false

/-- Models go-ethereum hexutil.Decode: reject the empty string and a missing
0x mark, then hex-decode the remainder. -/
def hexutilDecode (input : List Nat) : Except String Bytes :=
  if input.length = 0 then .error "empty hex string"
  else if ¬ has0x input then .error "hex string without 0x prefix"
  else hexDecodeBytes (input.drop 2)

/-- Models go-ethereum hexutil.Encode: the 0x mark followed by the lower case
hex digits. -/
def hexutilEncode (bs : Bytes) : List Nat := 48 :: 120 :: hexEncodeBytes bs

/-- Body of a JSON string after the opening quote: plain bytes up to a
closing quote that must end the input. The model rejects escape sequences
(the hex strings exchanged here never contain them) and trailing data, as the
Go encoding json package does. -/
def jsonStringBody : List Nat → Except String (List Nat)
  | [] => .error "unexpected end of JSON input"
  | c :: rest =>
    if c = 34 then
      match rest with
      | [] => .ok []
      | _ :: _ => .error "invalid character after top-level value"
    else if c = 92 then .error "unsupported escape in model"
    else
      match jsonStringBody rest with
      | .error e => .error e
      | .ok tail => .ok (c :: tail)

/-- Models json.Unmarshal of the Go standard library into a string value,
restricted to escape-free strings: the input must be exactly one double
quoted run of bytes. -/
def jsonUnmarshalString (b : List Nat) : Except String (List Nat) :=
  match b with
  | c :: rest =>
    if c = 34 then jsonStringBody rest
    else .error "json cannot unmarshal value into string"
  | [] => .error "unexpected end of JSON input"

/-- Models json.Marshal of the Go standard library applied to a string none
of whose bytes needs escaping, which holds for every hex string produced
here: the double quoted bytes. -/
def jsonMarshalString (s : List Nat) : List Nat := 34 :: s ++ [34]

/-- Embeds Signature.MarshalJSON: the JSON string of the hexutil encoding of
the joined signature. -/
def Signature.marshalJSON (s : Signature) : List Nat :=
  jsonMarshalString (hexutilEncode (joinSignature s))

/-- Embeds Signature.UnmarshalJSON. The Go method mutates its receiver and
returns an error; the embedding passes the receiver explicitly and returns
the error paired with the new receiver value. A JSON or hex failure returns
before any field is assigned; an all-zero decoded value returns success with
the receiver untouched; a value of any other content must be exactly 65
bytes, which are then split into R, S and V. -/
def Signature.unmarshalJSON (b : List Nat) (s : Signature) :
    Option String × Signature :=
  match jsonUnmarshalString b with
  | .error e => (some e, s)
  | .ok hex =>
    match hexutilDecode hex with
    | .error e => (some e, s)
    | .ok joined =>
      if allZero joined then (none, s)
      else if joined.length ≠ 65 then
        (some "signature must be 65 bytes long or a zero string", s)
      else
        (none, { R := joined.take 32
                 S := (joined.drop 32).take 32
                 V := joined.getD 64 0 })

/-- GuaranteeMetadata from guarantee.go: the two peer addresses Left and
Right. A go-ethereum address is exactly 20 bytes; theorems carry that as a
hypothesis. -/
structure GuaranteeMetadata where
  Left : Bytes
  Right : Bytes
deriving DecidableEq, Repr

/-- One 32 byte abi word holding an address: the address left-padded with
zero bytes, as the go-ethereum abi encoder packs an address. -/
def abiWord (a : Bytes) : Bytes := List.replicate (32 - a.length) 0 ++ a

/-- Embeds GuaranteeMetadata.Encode, with the go-ethereum abi Pack call at
the static type tuple of two addresses modelled concretely: the two 32 byte
words for Left and Right. -/
def GuaranteeMetadata.encode (m : GuaranteeMetadata) : Except String Bytes :=
  .ok (abiWord m.Left ++ abiWord m.Right)

/-- Embeds DecodeIntoGuaranteeMetadata, with the go-ethereum abi Unpack call
at the same type modelled concretely: fail when fewer than 64 bytes are
supplied, otherwise read the two words and keep the last 20 bytes of each
(common.BytesToAddress); convertToGuaranteeMetadata is the identity on the
two addresses. -/
def DecodeIntoGuaranteeMetadata (m : Bytes) : Except String GuaranteeMetadata :=
  if m.length < 64 then .error "abi length insufficient"
  else .ok { Left := (m.take 32).drop 12, Right := ((m.drop 32).take 32).drop 12 }

/-- Objective ids are strings (protocols.ObjectiveId). -/
abbrev ObjectiveId := String

/-- Channel ids are 32 byte destinations (types.Destination). -/
abbrev ChannelId := Bytes

/-- Channel secret keys are byte strings. -/
abbrev SecretKey := Bytes

/-- Modelled from the spec: types.Funds is absent from src; holdings are the
amounts of each asset held against a channel, an association of asset
address to amount. The engine passes the value through unread. -/
abbrev Funds := List (Bytes × Nat)

/-- Modelled from the spec: protocols.AdjudicationStatus is absent from src;
the engine passes the value through unread, so it is opaque here. -/
abbrev AdjudicationStatus := Nat

/-- Modelled from the spec: protocols.ObjectiveEvent is absent from src;
events carry new signatures per participant index, new holdings, and a new
adjudication status. -/
structure ObjectiveEvent where
  sigs : List (Nat × Signature)
  holdings : Funds
  adjudicationStatus : AdjudicationStatus
deriving DecidableEq

/-- Modelled from the spec: protocols.Message is absent from src; a message
names a peer, an objective id and carries signatures. The engine reads the
ObjectiveId and Sigs fields. -/
structure Message where
  To : Bytes
  objectiveId : ObjectiveId
  sigs : List (Nat × Signature)
deriving DecidableEq

/-- Modelled from the spec: protocols.ChainTransaction is absent from src
and opaque to the engine. -/
abbrev ChainTransaction := Nat

/-- Modelled from the spec: protocols.SideEffects is absent from src; it
holds the messages to send and the chain transactions to submit, the two
fields the engine iterates over. -/
structure SideEffects where
  messagesToSend : List Message
  transactionsToSubmit : List ChainTransaction
deriving DecidableEq

/-- WaitingFor names the next blocking condition of an objective
(protocols.WaitingFor, a string). -/
abbrev WaitingFor := String

/-- DepositedEvent from chainservice.go: channel id, holdings, adjudication
status and block number. -/
structure ChainEvent where
  channelId : ChannelId
  holdings : Funds
  adjudicationStatus : AdjudicationStatus
  blockNum : Nat
deriving DecidableEq

/-- Operations of the protocols.Objective interface, over an abstract
objective type, as the engine consumes them: Id, Update, Crank, Approve and
Reject. Crank returns the updated objective, side effects, a WaitingFor
value and an error. -/
structure ObjectiveOps (α : Type) where
  id : α → ObjectiveId
  update : α → ObjectiveEvent → α
  crank : α → SecretKey → α × SideEffects × WaitingFor × Option String
  approve : α → α
  reject : α → α

/-- Read interface of the engine's store, with the result the next
SetObjective call would report (the engine discards it, mirroring the
discarded error in the source). -/
structure StoreReads (α : Type) where
  getObjectiveById : ObjectiveId → α
  getObjectiveByChannelId : ChannelId → α
  getChannelSecretKey : SecretKey
  setObjectiveErr : α → Option String

/-- One observable action of an engine handler, in program order: a store
write of an objective, an outbound message, a submitted chain transaction,
or a progress timestamp update. -/
inductive EngineAct (α : Type) where
  | setObjective (o : α)
  | sendMessage (m : Message)
  | submitTransaction (t : ChainTransaction)
  | updateProgressLastMadeAt (id : ObjectiveId) (w : WaitingFor)
deriving DecidableEq

/-- Embeds executeSideEffects: send every message, then submit every chain
transaction. -/
def executeSideEffects {α : Type} (sideEffects : SideEffects) : List (EngineAct α) :=
  sideEffects.messagesToSend.map EngineAct.sendMessage ++
    sideEffects.transactionsToSubmit.map EngineAct.submitTransaction

/-- Embeds Engine.handleMessage as the ordered list of actions it performs:
load the objective named by the message's objective id, build the event from
the message's signatures, crank the updated objective with the channel
secret key, write the result to the store (the write error is discarded, as
in the source), execute the side effects, and update the progress timestamp
for the message's objective id with the returned WaitingFor. -/
def Engine.handleMessage {α : Type} (store : StoreReads α) (ops : ObjectiveOps α)
    (message : Message) : List (EngineAct α) :=
  let objective := store.getObjectiveById message.objectiveId
  let event : ObjectiveEvent := { sigs := message.sigs, holdings := [], adjudicationStatus := 0 }
  let secretKey := store.getChannelSecretKey
  let r := ops.crank (ops.update objective event) secretKey
  let updatedProtocol := r.1
  let sideEffects := r.2.1
  let waitingFor := r.2.2.1
  let _writeErr := store.setObjectiveErr updatedProtocol
  EngineAct.setObjective updatedProtocol ::
    (executeSideEffects sideEffects ++
      [EngineAct.updateProgressLastMadeAt message.objectiveId waitingFor])

/-- Embeds Engine.handleChainEvent as the ordered list of actions it
performs: load the objective owning the event's channel id, build the event
from the holdings and adjudication status, crank the updated objective with
the channel secret key, write the result to the store (write error
discarded), execute the side effects, and update the progress timestamp for
the loaded objective's id. -/
def Engine.handleChainEvent {α : Type} (store : StoreReads α) (ops : ObjectiveOps α)
    (chainEvent : ChainEvent) : List (EngineAct α) :=
  let objective := store.getObjectiveByChannelId chainEvent.channelId
  let event : ObjectiveEvent :=
    { sigs := [], holdings := chainEvent.holdings
      adjudicationStatus := chainEvent.adjudicationStatus }
  let secretKey := store.getChannelSecretKey
  let r := ops.crank (ops.update objective event) secretKey
  let updatedProtocol := r.1
  let sideEffects := r.2.1
  let waitingFor := r.2.2.1
  let _writeErr := store.setObjectiveErr updatedProtocol
  EngineAct.setObjective updatedProtocol ::
    (executeSideEffects sideEffects ++
      [EngineAct.updateProgressLastMadeAt (ops.id objective) waitingFor])

/-- APIEvent from engine.go: an optional objective to spawn, and objective
ids to reject and to approve, the empty string standing for Go's empty
string sentinel. -/
structure APIEvent (α : Type) where
  objectiveToSpawn : Option α
  objectiveToReject : ObjectiveId
  objectiveToApprove : ObjectiveId

/-- Embeds Engine.handleAPIEvent as the ordered list of actions it performs.
The approve branch loads the objective by the event's objectiveToReject id:
this mirrors the source line exactly (engine.go reads
apiEvent.ObjectiveToReject inside the ObjectiveToApprove branch). -/
def Engine.handleAPIEvent {α : Type} (store : StoreReads α) (ops : ObjectiveOps α)
    (apiEvent : APIEvent α) : List (EngineAct α) :=
  (match apiEvent.objectiveToSpawn with
   | some o =>
     let _writeErr := store.setObjectiveErr o
     [EngineAct.setObjective o]
   | none => []) ++
  (if apiEvent.objectiveToReject ≠ "" then
     let objective := store.getObjectiveById apiEvent.objectiveToReject
     let updatedProtocol := ops.reject objective
     let _writeErr := store.setObjectiveErr updatedProtocol
     [EngineAct.setObjective updatedProtocol]
   else []) ++
  (if apiEvent.objectiveToApprove ≠ "" then
     let objective := store.getObjectiveById apiEvent.objectiveToReject
     let updatedProtocol := ops.approve objective
     let _writeErr := store.setObjectiveErr updatedProtocol
     [EngineAct.setObjective updatedProtocol]
   else [])

/-- Progress book of the store: per objective id, the last reported
WaitingFor value and the timestamp it was recorded at. -/
abbrev ProgressMap := List (ObjectiveId × WaitingFor × Nat)

/-- Last recorded WaitingFor and timestamp for an objective id. -/
def lookupProgress (m : ProgressMap) (id : ObjectiveId) : Option (WaitingFor × Nat) :=
  match m with
  | [] => none
  | (i, w, t) :: rest => if i = id then some (w, t) else lookupProgress rest id

/-- Replace or append the progress entry of an objective id. -/
def setProgress (m : ProgressMap) (id : ObjectiveId) (w : WaitingFor) (t : Nat) :
    ProgressMap :=
  match m with
  | [] => [(id, w, t)]
  | (i, w0, t0) :: rest =>
    if i = id then (id, w, t) :: rest else (i, w0, t0) :: setProgress rest id w t

/-- Modelled from the spec: the Store implementation is absent from src
(only the engine's call sites appear there). Spec section 4.7 step 5 and
section 4.3 say progress-last-made-at(id) is updated when the reported
waiting-for changed; so the store replaces the entry with the new WaitingFor
and the current time exactly when the stored WaitingFor differs, and leaves
the book untouched otherwise. -/
def UpdateProgressLastMadeAt (now : Nat) (m : ProgressMap) (id : ObjectiveId)
    (w : WaitingFor) : ProgressMap :=
  match lookupProgress m id with
  | some (w0, _) => if w0 = w then m else setProgress m id w now
  | none => setProgress m id w now

/-- Concrete instance of the external crypto primitives used to evaluate the
abstract theorems on closed inputs: signing is reversible concatenation, the
public key of a secret key is the key itself, and the address is its first 20
bytes. -/
def toyCrypto : EthCrypto where
  keccak256 := fun _ => List.replicate 32 0
  secpSign := fun d k =>
    if k.length = 32 ∧ d.length = 32 then .ok (k ++ d ++ [0]) else .error "toy"
  secpRecoverPubkey := fun _ cs => .ok (cs.take 32)
  unmarshalPubkey := fun p => .ok p
  pubkeyToAddress := fun p => p.take 20
  pubOf := fun k => k

/-- Concrete store used to evaluate the engine theorems on closed inputs: it
serves a fixed objective and reports a failing objective write. -/
def storeFail : StoreReads Nat where
  getObjectiveById := fun _ => 1
  getObjectiveByChannelId := fun _ => 1
  getChannelSecretKey := []
  setObjectiveErr := fun _ => some "store write failed"

/-- Concrete outbound message used by the concrete objective operations. -/
def msgOut : Message := { To := [2], objectiveId := "obj-a", sigs := [] }

/-- Concrete objective operations over natural-number objectives used to
evaluate the engine theorems on closed inputs: cranking increments the
objective and emits one message and one transaction. -/
def opsDemo : ObjectiveOps Nat where
  id := fun _ => "obj-a"
  update := fun o _ => o
  crank := fun o _ =>
    (o + 1, { messagesToSend := [msgOut], transactionsToSubmit := [7] },
      "WaitingForNothing", none)
  approve := fun o => o + 10
  reject := fun o => o + 100

/-- Concrete inbound message used to evaluate the engine theorems. -/
def msgIn : Message := { To := [], objectiveId := "obj-a", sigs := [] }

/-- Concrete chain event used to evaluate the engine theorems. -/
def chainEvIn : ChainEvent :=
  { channelId := List.replicate 32 0, holdings := [([0], 5)]
    adjudicationStatus := 0, blockNum := 1 }

/-- Concrete store used to evaluate the API-event handler on closed inputs:
the id obj-a maps to objective 5, every other id to objective 0. -/
def storeApi : StoreReads Nat where
  getObjectiveById := fun id => if id = "obj-a" then 5 else 0
  getObjectiveByChannelId := fun _ => 0
  getChannelSecretKey := []
  setObjectiveErr := fun _ => none

/-- Concrete API event that approves objective obj-a and rejects nothing. -/
def apiApprove : APIEvent Nat :=
  { objectiveToSpawn := none, objectiveToReject := "", objectiveToApprove := "obj-a" }

/-!
Helper lemmas.
-/

theorem take_getD_eq (l : Bytes) : ∀ n : Nat, l.length = n + 1 →
    l.take n ++ [l.getD n 0] = l := by
  induction l with
  | nil => intro n h; simp at h
  | cons a t ih =>
    intro n h
    cases n with
    | zero =>
      have ht : t = [] := by
        have : t.length = 0 := by simpa using h
        exact List.length_eq_zero.mp this
      simp [ht]
    | succ n =>
      have ht : t.length = n + 1 := by simpa using h
      rw [List.take_succ_cons, List.getD_cons_succ, List.cons_append, ih n ht]

theorem join_split (cs : Bytes) (h : cs.length = 65) :
    joinSignature (SplitSignature cs) = cs := by
  have h33 : (cs.drop 32).length = 32 + 1 := by simp [List.length_drop, h]
  have hgd : (cs.drop 32).getD 32 0 = cs.getD 64 0 := by
    simp [List.getD_eq_getElem?_getD, List.getElem?_drop]
  calc joinSignature (SplitSignature cs)
      = cs.take 32 ++ ((cs.drop 32).take 32 ++ [(cs.drop 32).getD 32 0]) := by
        simp [joinSignature, SplitSignature, hgd]
    _ = cs.take 32 ++ cs.drop 32 := by rw [take_getD_eq (cs.drop 32) 32 h33]
    _ = cs := List.take_append_drop 32 cs

theorem signEthereumMessage_ok_shape (C : EthCrypto) (hC : SecpSound C)
    (m k : Bytes) (s : Signature) (h : SignEthereumMessage C m k = .ok s) :
    ∃ cs, C.secpSign (computeEthereumSignedMessageDigest C m) k = .ok cs ∧
      cs.length = 65 ∧ (cs.getD 64 0 = 0 ∨ cs.getD 64 0 = 1) ∧
      s = { R := cs.take 32, S := (cs.drop 32).take 32, V := cs.getD 64 0 + 27 } := by
  unfold SignEthereumMessage at h
  cases hcs : C.secpSign (computeEthereumSignedMessageDigest C m) k with
  | error e => rw [hcs] at h; exact absurd h (by simp)
  | ok cs =>
    rw [hcs] at h
    refine ⟨cs, rfl, hC.sign_length _ _ _ hcs, hC.sign_v _ _ _ hcs, ?_⟩
    have hv := hC.sign_v _ _ _ hcs
    rcases hv with h0 | h0 <;>
      simp only [SplitSignature, h0] at h ⊢ <;>
      simpa using h.symm

theorem toyCrypto_sound : SecpSound toyCrypto := by
  constructor
  · intro d k s h
    unfold toyCrypto at h
    simp only at h
    split at h
    · rename_i hkd
      cases h
      simp [List.length_append, hkd.1, hkd.2]
    · exact absurd h (by simp)
  · intro d k s h
    unfold toyCrypto at h
    simp only at h
    split at h
    · rename_i hkd
      cases h
      left
      rw [show k ++ d ++ [0] = (k ++ d) ++ [0] from rfl]
      rw [List.getD_append_right]
      · simp [hkd.1, hkd.2]
      · simp [hkd.1, hkd.2]
    · exact absurd h (by simp)
  · intro d k s h
    unfold toyCrypto at h ⊢
    simp only at h ⊢
    split at h
    · rename_i hkd
      cases h
      rw [show k ++ d ++ [0] = k ++ (d ++ [0]) from by simp]
      rw [List.take_left' hkd.1]
    · exact absurd h (by simp)
  · intro k
    rfl

/-- C1: for every message and secret key for which signing succeeds,
RecoverEthereumMessageSigner applied to the signature produced by
SignEthereumMessage returns the address derived from the key's public key,
assuming the secp256k1 library contract. -/
theorem signEthereumMessage_recover_roundtrip (C : EthCrypto) (hC : SecpSound C)
    (m k : Bytes) (s : Signature) (h : SignEthereumMessage C m k = .ok s) :
    RecoverEthereumMessageSigner C m s = .ok (addressOf C k) := by
  obtain ⟨cs, hcs, hlen, hv, rfl⟩ := signEthereumMessage_ok_shape C hC m k s h
  have hnorm :
      normaliseV { R := cs.take 32, S := (cs.drop 32).take 32, V := cs.getD 64 0 + 27 } =
        SplitSignature cs := by
    unfold normaliseV SplitSignature
    have h27 : 27 ≤ cs.getD 64 0 + 27 := Nat.le_add_left _ _
    rw [if_pos h27]
    have hsub : cs.getD 64 0 + 27 - 27 = cs.getD 64 0 := by omega
    have hlt : cs.getD 64 0 < 256 := by omega
    rw [hsub, Nat.mod_eq_of_lt hlt]
  simp only [RecoverEthereumMessageSigner]
  rw [hnorm, join_split cs hlen, hC.recover_sign _ _ _ hcs]
  simp [hC.unmarshal_pub, addressOf]

/-- Witness for C1: a closed round trip through the concrete crypto
instance. -/
theorem signEthereumMessage_recover_roundtrip_witness :
    RecoverEthereumMessageSigner toyCrypto [1, 2, 3]
        { R := List.replicate 32 5, S := List.replicate 32 0, V := 27 } =
      .ok (addressOf toyCrypto (List.replicate 32 5)) :=
  signEthereumMessage_recover_roundtrip toyCrypto toyCrypto_sound [1, 2, 3]
    (List.replicate 32 5)
    { R := List.replicate 32 5, S := List.replicate 32 0, V := 27 } (by rfl)

/-- C5: every signature returned successfully by SignEthereumMessage has its
V byte equal to 27 or 28, and the V normalisation RecoverEthereumMessageSigner
performs before public key recovery brings it back to 0 or 1, assuming the
secp256k1 library contract. -/
theorem signEthereumMessage_v_normalisation (C : EthCrypto) (hC : SecpSound C)
    (m k : Bytes) (s : Signature) (h : SignEthereumMessage C m k = .ok s) :
    (s.V = 27 ∨ s.V = 28) ∧ ((normaliseV s).V = 0 ∨ (normaliseV s).V = 1) := by
  obtain ⟨cs, hcs, hlen, hv, rfl⟩ := signEthereumMessage_ok_shape C hC m k s h
  have h27 : 27 ≤ cs.getD 64 0 + 27 := Nat.le_add_left _ _
  constructor
  · show cs.getD 64 0 + 27 = 27 ∨ cs.getD 64 0 + 27 = 28
    omega
  · unfold normaliseV
    rw [if_pos h27]
    show (cs.getD 64 0 + 27 - 27) % 256 = 0 ∨ (cs.getD 64 0 + 27 - 27) % 256 = 1
    have hsub : cs.getD 64 0 + 27 - 27 = cs.getD 64 0 := by omega
    have hlt : cs.getD 64 0 < 256 := by omega
    rw [hsub, Nat.mod_eq_of_lt hlt]
    exact hv

/-- Witness for C5: the V bytes of a closed signature produced through the
concrete crypto instance. -/
theorem signEthereumMessage_v_normalisation_witness :
    (Signature.V { R := List.replicate 32 5, S := List.replicate 32 0, V := 27 } = 27 ∨
      Signature.V { R := List.replicate 32 5, S := List.replicate 32 0, V := 27 } = 28) ∧
    ((normaliseV { R := List.replicate 32 5, S := List.replicate 32 0, V := 27 }).V = 0 ∨
      (normaliseV { R := List.replicate 32 5, S := List.replicate 32 0, V := 27 }).V = 1) :=
  signEthereumMessage_v_normalisation toyCrypto toyCrypto_sound [1, 2, 3]
    (List.replicate 32 5)
    { R := List.replicate 32 5, S := List.replicate 32 0, V := 27 } (by rfl)


theorem hexDigitVal_hexDigitChar (n : Nat) (h : n < 16) :
    hexDigitVal (hexDigitChar n) = some n := by
  interval_cases n <;> rfl

theorem hexDigitChar_ne_quote_backslash (n : Nat) :
    hexDigitChar n ≠ 34 ∧ hexDigitChar n ≠ 92 := by
  unfold hexDigitChar
  split <;> omega

theorem hexDecode_hexEncode (bs : Bytes) (hb : ∀ b ∈ bs, b < 256) :
    hexDecodeBytes (hexEncodeBytes bs) = .ok bs := by
  induction bs with
  | nil => rfl
  | cons v t ih =>
    have hv : v < 256 := hb v (List.mem_cons_self v t)
    have h1 : (v / 16) % 16 < 16 := Nat.mod_lt _ (by norm_num)
    have h2 : v % 16 < 16 := Nat.mod_lt _ (by norm_num)
    have hstep : hexEncodeBytes (v :: t) =
        hexDigitChar ((v / 16) % 16) :: hexDigitChar (v % 16) :: hexEncodeBytes t := rfl
    rw [hstep]
    unfold hexDecodeBytes
    rw [hexDigitVal_hexDigitChar _ h1, hexDigitVal_hexDigitChar _ h2,
      ih (fun b hb' => hb b (List.mem_cons_of_mem v hb'))]
    have hdiv : v / 16 < 16 := by omega
    rw [Nat.mod_eq_of_lt hdiv]
    show Except.ok ((16 * (v / 16) + v % 16) :: t) = Except.ok (v :: t)
    rw [Nat.div_add_mod v 16]

theorem jsonStringBody_closed (s : List Nat) (hs : ∀ c ∈ s, c ≠ 34 ∧ c ≠ 92) :
    jsonStringBody (s ++ [34]) = .ok s := by
  induction s with
  | nil => rfl
  | cons c t ih =>
    obtain ⟨h34, h92⟩ := hs c (List.mem_cons_self c t)
    have ih' := ih (fun c' hc' => hs c' (List.mem_cons_of_mem c hc'))
    rw [List.cons_append]
    simp only [jsonStringBody, if_neg h34, if_neg h92, ih']

theorem hexutilEncode_chars (bs : Bytes) :
    ∀ c ∈ hexutilEncode bs, c ≠ 34 ∧ c ≠ 92 := by
  intro c hc
  unfold hexutilEncode at hc
  rcases List.mem_cons.mp hc with rfl | hc
  · exact ⟨by norm_num, by norm_num⟩
  rcases List.mem_cons.mp hc with rfl | hc
  · exact ⟨by norm_num, by norm_num⟩
  unfold hexEncodeBytes at hc
  obtain ⟨v, _, hcv⟩ := List.mem_flatMap.mp hc
  rcases List.mem_cons.mp hcv with rfl | hcv
  · exact hexDigitChar_ne_quote_backslash _
  rcases List.mem_cons.mp hcv with rfl | hcv
  · exact hexDigitChar_ne_quote_backslash _
  · exact absurd hcv (List.not_mem_nil _)

theorem jsonUnmarshal_marshal (s : List Nat) (hs : ∀ c ∈ s, c ≠ 34 ∧ c ≠ 92) :
    jsonUnmarshalString (jsonMarshalString s) = .ok s := by
  show jsonStringBody (s ++ [34]) = .ok s
  exact jsonStringBody_closed s hs

theorem hexutilDecode_hexutilEncode (bs : Bytes) (hb : ∀ b ∈ bs, b < 256) :
    hexutilDecode (hexutilEncode bs) = .ok bs := by
  have h := hexDecode_hexEncode bs hb
  simp only [hexutilDecode, hexutilEncode] at h ⊢
  simp [has0x, h]

set_option maxRecDepth 8000 in
/-- C6: decoding the hex string of the all-zero 65 byte value succeeds
without error and leaves the receiver as the zero Signature value. -/
theorem unmarshalJSON_allzero_sixtyfive :
    Signature.unmarshalJSON (jsonMarshalString (hexutilEncode (List.replicate 65 0)))
      { R := [], S := [], V := 0 } = (none, { R := [], S := [], V := 0 }) := by
  decide

set_option maxRecDepth 8000 in
/-- Counterexample to C7 as stated: the signature whose R and S are 32 zero
bytes and whose V is zero serialises to the all-zero hex string, which
decodes without error to the untouched zero receiver, a value different from
the original both structurally and under Signature.Equal. -/
theorem signature_allzero_not_roundtrip :
    (Signature.unmarshalJSON
        (Signature.marshalJSON { R := List.replicate 32 0, S := List.replicate 32 0, V := 0 })
        { R := [], S := [], V := 0 }).1 = none ∧
    (Signature.unmarshalJSON
        (Signature.marshalJSON { R := List.replicate 32 0, S := List.replicate 32 0, V := 0 })
        { R := [], S := [], V := 0 }).2 ≠
      { R := List.replicate 32 0, S := List.replicate 32 0, V := 0 } ∧
    Signature.equal
        (Signature.unmarshalJSON
          (Signature.marshalJSON { R := List.replicate 32 0, S := List.replicate 32 0, V := 0 })
          { R := [], S := [], V := 0 }).2
        { R := List.replicate 32 0, S := List.replicate 32 0, V := 0 } = false := by
  refine ⟨by decide, by decide, by decide⟩

/-- C7 (amended): a signature with 32 byte R, 32 byte S and a V byte whose
65 byte serialisation is not all zero round-trips through MarshalJSON and
UnmarshalJSON, whatever the receiver held before. -/
theorem signature_marshal_unmarshal_roundtrip (s s₀ : Signature)
    (hR : s.R.length = 32) (hS : s.S.length = 32)
    (hRb : ∀ b ∈ s.R, b < 256) (hSb : ∀ b ∈ s.S, b < 256) (hV : s.V < 256)
    (hnz : allZero (joinSignature s) = false) :
    Signature.unmarshalJSON (Signature.marshalJSON s) s₀ = (none, s) := by
  have hbytes : ∀ b ∈ joinSignature s, b < 256 := by
    intro b hb
    unfold joinSignature at hb
    rcases List.mem_append.mp hb with hb | hb
    · rcases List.mem_append.mp hb with hb | hb
      · exact hRb b hb
      · exact hSb b hb
    · rcases List.mem_cons.mp hb with rfl | hb
      · exact hV
      · exact absurd hb (List.not_mem_nil _)
  have hjson := jsonUnmarshal_marshal _ (hexutilEncode_chars (joinSignature s))
  have hhex := hexutilDecode_hexutilEncode _ hbytes
  have hlen : (joinSignature s).length = 65 := by
    simp [joinSignature, hR, hS]
  have e1 : (joinSignature s).take 32 = s.R := by
    unfold joinSignature
    rw [List.append_assoc, List.take_left' hR]
  have e2 : ((joinSignature s).drop 32).take 32 = s.S := by
    unfold joinSignature
    rw [List.append_assoc, List.drop_left' hR, List.take_left' hS]
  have e3 : (joinSignature s).getD 64 0 = s.V := by
    unfold joinSignature
    rw [List.getD_append_right]
    · simp [hR, hS]
    · simp [hR, hS]
  simp only [Signature.marshalJSON, Signature.unmarshalJSON, hjson, hhex, hnz, hlen,
    e1, e2, e3]
  norm_num

set_option maxRecDepth 8000 in
/-- Witness for C7 (amended): a closed non-zero signature round-trips. -/
theorem signature_marshal_unmarshal_roundtrip_witness :
    allZero (joinSignature { R := List.replicate 32 1, S := List.replicate 32 2, V := 27 }) =
      false ∧
    Signature.unmarshalJSON
        (Signature.marshalJSON { R := List.replicate 32 1, S := List.replicate 32 2, V := 27 })
        { R := [], S := [], V := 0 } =
      (none, { R := List.replicate 32 1, S := List.replicate 32 2, V := 27 }) :=
  ⟨by decide,
    signature_marshal_unmarshal_roundtrip
      { R := List.replicate 32 1, S := List.replicate 32 2, V := 27 }
      { R := [], S := [], V := 0 }
      (by decide) (by decide) (by decide) (by decide) (by decide) (by decide)⟩

/-- C10: UnmarshalJSON succeeds exactly when the input parses as a JSON
string whose content hex-decodes and the decoded bytes are all zero (of any
length) or exactly 65 bytes long; an all-zero decode leaves the receiver
untouched, and every error path leaves the receiver untouched. -/
theorem unmarshalJSON_error_characterisation (b : List Nat) (s₀ : Signature) :
    ((Signature.unmarshalJSON b s₀).1 = none ↔
      ∃ hex joined, jsonUnmarshalString b = .ok hex ∧ hexutilDecode hex = .ok joined ∧
        (allZero joined = true ∨ joined.length = 65)) ∧
    (∀ hex joined, jsonUnmarshalString b = .ok hex → hexutilDecode hex = .ok joined →
      allZero joined = true → Signature.unmarshalJSON b s₀ = (none, s₀)) ∧
    ((Signature.unmarshalJSON b s₀).1 ≠ none → (Signature.unmarshalJSON b s₀).2 = s₀) := by
  unfold Signature.unmarshalJSON
  cases hj : jsonUnmarshalString b with
  | error e => simp
  | ok hex =>
    cases hh : hexutilDecode hex with
    | error e =>
      simp [hh]
      intro hex1 joined h1 h2
      subst h1
      rw [hh] at h2
      simp at h2
    | ok joined =>
      by_cases hz : allZero joined = true
      · simp [hh, hz]
      · by_cases hl : joined.length = 65
        · simp [hh, hz, hl]
          intro hex1 joined1 h1 h2 h3
          subst h1
          rw [hh] at h2
          injection h2 with h2
          subst h2
          exact absurd h3 hz
        · simp [hh, hz, hl]
          intro hex1 joined1 h1 h2
          subst h1
          rw [hh] at h2
          injection h2 with h2
          subst h2
          simpa using hz

/-- Witness for C10: the receiver survives a hex-decoding failure. -/
theorem unmarshalJSON_error_characterisation_witness :
    (Signature.unmarshalJSON [34, 48, 120, 122, 122, 34] { R := [], S := [], V := 0 }).2 =
      { R := [], S := [], V := 0 } :=
  (unmarshalJSON_error_characterisation [34, 48, 120, 122, 122, 34]
    { R := [], S := [], V := 0 }).2.2 (by decide)

/-- C8: abi-encoding a GuaranteeMetadata with Encode and decoding the bytes
with DecodeIntoGuaranteeMetadata succeeds and returns the same metadata,
for 20 byte addresses. -/
theorem guaranteeMetadata_encode_decode_roundtrip (m : GuaranteeMetadata)
    (hL : m.Left.length = 20) (hR : m.Right.length = 20) :
    m.encode.bind DecodeIntoGuaranteeMetadata = .ok m := by
  have h1 : (abiWord m.Left).length = 32 := by simp [abiWord, hL]
  have h2 : (abiWord m.Right).length = 32 := by simp [abiWord, hR]
  show DecodeIntoGuaranteeMetadata (abiWord m.Left ++ abiWord m.Right) = .ok m
  unfold DecodeIntoGuaranteeMetadata
  rw [if_neg (by simp [h1, h2])]
  rw [List.take_left' h1, List.drop_left' h1,
    List.take_of_length_le (Nat.le_of_eq h2)]
  have e1 : (abiWord m.Left).drop 12 = m.Left := by
    unfold abiWord
    rw [hL]
    rw [List.drop_left' (by simp)]
  have e2 : (abiWord m.Right).drop 12 = m.Right := by
    unfold abiWord
    rw [hR]
    rw [List.drop_left' (by simp)]
  rw [e1, e2]

/-- Witness for C8: a closed metadata value round-trips. -/
theorem guaranteeMetadata_encode_decode_roundtrip_witness :
    (GuaranteeMetadata.encode
        { Left := List.replicate 20 7, Right := List.replicate 20 9 }).bind
      DecodeIntoGuaranteeMetadata =
      .ok { Left := List.replicate 20 7, Right := List.replicate 20 9 } :=
  guaranteeMetadata_encode_decode_roundtrip
    { Left := List.replicate 20 7, Right := List.replicate 20 9 }
    (by decide) (by decide)

/-- C3: for a peer message the engine loads the objective named by the
message's objective id, and for a chain event the objective owning the
event's channel id; in both cases the objective written to the store is the
first component of Crank of the secret key applied to Update of the event
applied to the loaded objective, and nothing else is written. -/
theorem engine_persists_crank_of_update (α : Type) (store : StoreReads α)
    (ops : ObjectiveOps α) (message : Message) (chainEvent : ChainEvent) :
    (∀ o : α, EngineAct.setObjective o ∈ Engine.handleMessage store ops message ↔
      o = (ops.crank (ops.update (store.getObjectiveById message.objectiveId)
            { sigs := message.sigs, holdings := [], adjudicationStatus := 0 })
          store.getChannelSecretKey).1) ∧
    (∀ o : α, EngineAct.setObjective o ∈ Engine.handleChainEvent store ops chainEvent ↔
      o = (ops.crank (ops.update (store.getObjectiveByChannelId chainEvent.channelId)
            { sigs := [], holdings := chainEvent.holdings
              adjudicationStatus := chainEvent.adjudicationStatus })
          store.getChannelSecretKey).1) := by
  constructor <;> intro o <;>
    simp [Engine.handleMessage, Engine.handleChainEvent, executeSideEffects,
      eq_comm]

/-- Witness for C3: membership of the cranked objective in a closed trace. -/
theorem engine_persists_crank_of_update_witness :
    EngineAct.setObjective 2 ∈ Engine.handleMessage storeFail opsDemo msgIn :=
  ((engine_persists_crank_of_update Nat storeFail opsDemo msgIn chainEvIn).1 2).mpr
    (by decide)

/-- C2 (code bug): the engine persists the objective before dispatching side
effects, but when the store write fails it still dispatches them: on a store
whose SetObjective reports a failure, the traces of handleMessage and
handleChainEvent still contain the outbound message and the chain
transaction after the store write. -/
theorem engine_dispatches_side_effects_despite_write_failure :
    storeFail.setObjectiveErr 2 = some "store write failed" ∧
    Engine.handleMessage storeFail opsDemo msgIn =
      [EngineAct.setObjective 2, EngineAct.sendMessage msgOut,
        EngineAct.submitTransaction 7,
        EngineAct.updateProgressLastMadeAt "obj-a" "WaitingForNothing"] ∧
    Engine.handleChainEvent storeFail opsDemo chainEvIn =
      [EngineAct.setObjective 2, EngineAct.sendMessage msgOut,
        EngineAct.submitTransaction 7,
        EngineAct.updateProgressLastMadeAt "obj-a" "WaitingForNothing"] := by
  refine ⟨rfl, rfl, rfl⟩

/-- C4 (code bug): an API event whose ObjectiveToApprove is obj-a and whose
ObjectiveToReject is empty makes the engine approve and persist the
objective loaded under the empty id, not the one loaded under obj-a. -/
theorem engine_approve_branch_loads_reject_id :
    Engine.handleAPIEvent storeApi opsDemo apiApprove =
      [EngineAct.setObjective (opsDemo.approve (storeApi.getObjectiveById ""))] ∧
    EngineAct.setObjective
        (opsDemo.approve (storeApi.getObjectiveById apiApprove.objectiveToApprove)) ∉
      Engine.handleAPIEvent storeApi opsDemo apiApprove := by
  refine ⟨rfl, by decide⟩

theorem lookupProgress_setProgress (m : ProgressMap) (id : ObjectiveId)
    (w : WaitingFor) (t : Nat) :
    lookupProgress (setProgress m id w t) id = some (w, t) := by
  induction m with
  | nil => simp [setProgress, lookupProgress]
  | cons e rest ih =>
    obtain ⟨i, w0, t0⟩ := e
    by_cases hi : i = id
    · simp [setProgress, lookupProgress, hi]
    · simp [setProgress, lookupProgress, hi, ih]

theorem getLast_cons_append_singleton {α : Type} (a b : α) (xs : List α) :
    (a :: (xs ++ [b])).getLast? = some b := by
  rw [show a :: (xs ++ [b]) = (a :: xs) ++ [b] from rfl]
  exact List.getLast?_concat _

/-- C9: after handling a peer message the final engine action updates the
progress timestamp of the message's objective id, and after handling a chain
event that of the loaded objective's id, in both cases with the WaitingFor
value returned by Crank; the spec-modelled store then leaves the progress
book untouched when the recorded WaitingFor equals the reported one, and
stamps the current time exactly when it changed or was absent. -/
theorem engine_progress_updated_iff_waitingFor_changed (α : Type)
    (store : StoreReads α) (ops : ObjectiveOps α) (message : Message)
    (chainEvent : ChainEvent) (m : ProgressMap) (now : Nat) :
    ((Engine.handleMessage store ops message).getLast? =
      some (EngineAct.updateProgressLastMadeAt message.objectiveId
        (ops.crank (ops.update (store.getObjectiveById message.objectiveId)
            { sigs := message.sigs, holdings := [], adjudicationStatus := 0 })
          store.getChannelSecretKey).2.2.1)) ∧
    ((Engine.handleChainEvent store ops chainEvent).getLast? =
      some (EngineAct.updateProgressLastMadeAt
        (ops.id (store.getObjectiveByChannelId chainEvent.channelId))
        (ops.crank (ops.update (store.getObjectiveByChannelId chainEvent.channelId)
            { sigs := [], holdings := chainEvent.holdings
              adjudicationStatus := chainEvent.adjudicationStatus })
          store.getChannelSecretKey).2.2.1)) ∧
    (∀ id w t, lookupProgress m id = some (w, t) →
      UpdateProgressLastMadeAt now m id w = m) ∧
    (∀ id w w0 t0, lookupProgress m id = some (w0, t0) → w0 ≠ w →
      lookupProgress (UpdateProgressLastMadeAt now m id w) id = some (w, now)) ∧
    (∀ id w, lookupProgress m id = none →
      lookupProgress (UpdateProgressLastMadeAt now m id w) id = some (w, now)) := by
  refine ⟨?_, ?_, ?_, ?_, ?_⟩
  · exact getLast_cons_append_singleton _ _ _
  · exact getLast_cons_append_singleton _ _ _
  · intro id w t h
    unfold UpdateProgressLastMadeAt
    rw [h]
    simp
  · intro id w w0 t0 h hne
    unfold UpdateProgressLastMadeAt
    rw [h]
    simp only [if_neg hne]
    exact lookupProgress_setProgress m id w now
  · intro id w h
    unfold UpdateProgressLastMadeAt
    rw [h]
    exact lookupProgress_setProgress m id w now

/-- Witness for C9: a closed progress book is restamped when WaitingFor
changed. -/
theorem engine_progress_updated_witness :
    lookupProgress
        (UpdateProgressLastMadeAt 9 [("obj-a", "x", 5)] "obj-a" "WaitingForNothing")
        "obj-a" = some ("WaitingForNothing", 9) :=
  (engine_progress_updated_iff_waitingFor_changed Nat storeFail opsDemo msgIn
      chainEvIn [("obj-a", "x", 5)] 9).2.2.2.1 "obj-a" "WaitingForNothing" "x" 5
    (by decide) (by decide)
